import Mathlib

/-!
Verification development for the PyRTL MIPS pipeline simulator fixtures.

The repository's visible sources are two guest C fixture programs:
  * `examples/mips-example.c`
  * `examples/mips_pipeline/mips-example.c`
Both define `__start`, which issues a sequence of `syscall` invocations.
We embed each `__start` as the list of syscall invocations it performs,
in program order.

The simulator core (register file, memory subsystem, hazard unit,
pipeline controller, syscall dispatcher) is not among the visible
sources; those components are modelled from the specification, each
marked `Modelled from the spec:` in its doc comment.
-/

namespace MipsFixtures

/-- A syscall invocation: the raw guest-visible syscall number together
with the argument values passed, in order (spec section 3, "Syscall
Invocation"). -/
structure SyscallInvocation where
  num : Nat
  args : List Int
deriving Repr, DecidableEq

/-- From `mips-example.c`: `#define SYS_print_int 1`. -/
def SYS_print_int : Nat := 1

/-- From `mips-example.c`: `#define SYS_exit 10`. -/
def SYS_exit : Nat := 10

/-- The string literal `"hello world\n"` from both fixtures. -/
def helloWorld : String := "hello world\n"

/-- C `strlen` on the (NUL-free, ASCII) fixture literal: the number of
characters. -/
def strlen (s : String) : Nat := s.length

/-- The loop `int i = 0; for (; i <= 10; ++i) syscall(SYS_print_int, i);`
from `__start`, embedded as the syscall invocations it performs starting
from counter value `i`. -/
def printLoop (i : Int) : List SyscallInvocation :=
  if _h : i ≤ 10 then ⟨SYS_print_int, [i]⟩ :: printLoop (i + 1) else []
termination_by (11 - i).toNat
decreasing_by omega

/-- The `__start` of `examples/mips-example.c`, embedded as its syscall
trace in program order: print `strlen "hello world\n"`, then the loop
printing 0..10, then `syscall(44, 5, 6)`, then `syscall(SYS_exit, 42)`. -/
def mipsExampleStart : List SyscallInvocation :=
  ⟨SYS_print_int, [(strlen helloWorld : Int)]⟩ ::
    (printLoop 0 ++ [⟨44, [5, 6]⟩, ⟨SYS_exit, [42]⟩])

/-- The `__start` of `examples/mips_pipeline/mips-example.c`, embedded as
its syscall trace in program order: print `strlen "hello world\n"`,
then the loop printing 0..10, then `syscall(SYS_exit, 42)`. -/
def mipsPipelineStart : List SyscallInvocation :=
  ⟨SYS_print_int, [(strlen helloWorld : Int)]⟩ ::
    (printLoop 0 ++ [⟨SYS_exit, [42]⟩])

/-- Modelled from the spec: the outcome of dispatching one syscall
(spec section 4.8, `SyscallOutcome`): print-integer emits the argument
to the output stream, exit terminates the simulation with the argument
as the guest exit status, and an unrecognized number produces an
`UnsupportedSyscall` outcome. -/
inductive SyscallOutcome where
  | output (n : Int)
  | exit (status : Int)
  | unsupported (num : Nat)
deriving Repr, DecidableEq

/-- Modelled from the spec: the Syscall Dispatcher's table lookup (spec
sections 4.8 and 6), keyed by the raw guest-visible syscall number:
1 = print-integer, 10 = exit, anything else is unrecognized.  The
print-integer argument (and the exit status) is the first argument
register value. -/
def dispatch (num : Nat) (args : List Int) : SyscallOutcome :=
  if num = 1 then .output (args.headD 0)
  else if num = 10 then .exit (args.headD 0)
  else .unsupported num

/-- Modelled from the spec: the fixed O32 base offset (spec section 6;
also the comment block of `examples/mips_pipeline/mips-example.c`:
"syscalls start at 4000. So syscall 1 is 4001 actually"). -/
def o32Base : Nat := 4000

/-- Modelled from the spec: how the guest toolchain encodes a raw
syscall number into the trap — it "ends up essentially compiling to
adding 4000 to whatever number syscall you choose"
(`examples/mips_pipeline/mips-example.c` comment). -/
def encodeO32 (raw : Nat) : Nat := raw + o32Base

/-- Modelled from the spec: the normalization applied once at the
Decoder/Dispatcher boundary — the host-side +4000 base offset is
subtracted before table lookup (spec section 6). -/
def normalize (enc : Nat) : Nat := enc - o32Base

/-- Modelled from the spec: the Decoder/Dispatcher boundary — a trap
carrying the toolchain-encoded number is normalized exactly once, and
the dispatcher's table lookup then uses the resulting raw number. -/
def dispatchEncoded (enc : Nat) (args : List Int) : SyscallOutcome :=
  dispatch (normalize enc) args

/-- Modelled from the spec: the policy choice for an unrecognized
syscall number left open by spec sections 4.8 and 9 — either a fatal
fault, or a non-fatal no-op. -/
inductive UnsupportedPolicy where
  | fatal
  | noop
deriving Repr, DecidableEq

/-- How a run of the simulator ends (spec sections 4.9, 6 and 7): a
normal exit with a guest status, a fatal `UnsupportedSyscall` fault, or
the trace running out without an exit syscall. -/
inductive RunOutcome where
  | exited (status : Int)
  | unsupportedFault (num : Nat)
  | ranOff
deriving Repr, DecidableEq

/-- The host-observable result of a run: the output stream (printed
integers, in retirement order) and the way the run ended. -/
structure RunResult where
  output : List Int
  outcome : RunOutcome
deriving Repr, DecidableEq

/-- Modelled from the spec: running the simulator over a guest syscall
trace in program order (spec section 5 requires output emission to
follow retirement order exactly).  Dispatch each invocation in turn:
print-integer appends to the output stream, exit terminates with the
given status, and an unrecognized number either faults (fatal policy)
or is skipped (no-op policy). -/
def runTrace (pol : UnsupportedPolicy) : List SyscallInvocation → RunResult
  | [] => ⟨[], .ranOff⟩
  | c :: rest =>
    match dispatch c.num c.args with
    | .output n =>
      let r := runTrace pol rest
      ⟨n :: r.output, r.outcome⟩
    | .exit s => ⟨[], .exited s⟩
    | .unsupported m =>
      match pol with
      | .fatal => ⟨[], .unsupportedFault m⟩
      | .noop => runTrace pol rest

/-- An abstract syscall semantics, used to quantify over "any syscall
semantics": each invocation either emits one integer, terminates the
run with a status, or is a non-fatal no-op with no output. -/
inductive HandlerResult where
  | emit (n : Int)
  | term (status : Int)
  | skip
deriving Repr, DecidableEq

/-- Running a guest syscall trace under an abstract semantics `h`. -/
def genRun (h : SyscallInvocation → HandlerResult) :
    List SyscallInvocation → RunResult
  | [] => ⟨[], .ranOff⟩
  | c :: rest =>
    match h c with
    | .emit n =>
      let r := genRun h rest
      ⟨n :: r.output, r.outcome⟩
    | .term s => ⟨[], .exited s⟩
    | .skip => genRun h rest

/-- The standard dispatcher read as an abstract semantics under the
no-op policy for unrecognized numbers. -/
def noopHandler (c : SyscallInvocation) : HandlerResult :=
  match dispatch c.num c.args with
  | .output n => .emit n
  | .exit s => .term s
  | .unsupported _ => .skip

/-- Modelled from the spec: the Register File (spec sections 3 and
4.2) — an ordered sequence of 32 signed integers indexed by register
number. -/
def RegFile : Type := Fin 32 → Int

/-- Modelled from the spec: `read(index) -> value` always succeeds and
index 0 yields the constant zero (spec section 4.2). -/
def RegFile.read (rf : RegFile) (i : Fin 32) : Int :=
  if i = 0 then 0 else rf i

/-- Modelled from the spec: `write(index, value)` is a no-op when the
index is 0, otherwise stores unconditionally (spec section 4.2). -/
def RegFile.write (rf : RegFile) (i : Fin 32) (v : Int) : RegFile :=
  if i = 0 then rf else Function.update rf i v

/-- The all-zero register file the Controller starts from. -/
def RegFile.init : RegFile := fun _ => 0

/-- A sequence of writes applied in order (last writer wins, spec
section 4.2). -/
def RegFile.applyWrites (rf : RegFile) : List (Fin 32 × Int) → RegFile
  | [] => rf
  | (i, v) :: ws => RegFile.applyWrites (rf.write i v) ws

/-- Modelled from the spec: the memory error cases (spec section 4.3)
— misaligned access, or an address outside any mapped region. -/
inductive MemoryFault where
  | misaligned
  | unmapped
deriving Repr, DecidableEq

/-- Modelled from the spec: the Memory Subsystem (spec sections 3 and
4.3) — a byte-addressable map with mapped regions; never-written bytes
read as zero. -/
structure Mem where
  mapped : Nat → Bool
  bytes : Nat → Nat

/-- An access is aligned when the address is a multiple of the operand
width (spec section 4.3). -/
def Mem.alignedTo (w a : Nat) : Bool := a % w == 0

/-- All `w` bytes starting at `a` fall inside a mapped region. -/
def Mem.regionMapped (m : Mem) (a w : Nat) : Bool :=
  (List.range w).all (fun k => m.mapped (a + k))

/-- Modelled from the spec: `load(address, width) -> bytes |
MemoryFault` (spec section 4.3) — faults on misalignment or an unmapped
address, otherwise returns the `w` bytes starting at the address. -/
def Mem.load (m : Mem) (a w : Nat) : Except MemoryFault (List Nat) :=
  if Mem.alignedTo w a then
    if m.regionMapped a w then
      .ok ((List.range w).map (fun k => m.bytes (a + k)))
    else .error .unmapped
  else .error .misaligned

/-- Modelled from the spec: `store(address, width, bytes) -> () |
MemoryFault` (spec section 4.3) — faults on misalignment or an unmapped
address, otherwise overwrites the `w` bytes starting at the address. -/
def Mem.store (m : Mem) (a w : Nat) (b : List Nat) : Except MemoryFault Mem :=
  if Mem.alignedTo w a then
    if m.regionMapped a w then
      .ok { m with
            bytes := fun x => if a ≤ x ∧ x < a + w then b.getD (x - a) 0 else m.bytes x }
    else .error .unmapped
  else .error .misaligned

/-- A fresh memory with the given mapped regions and no byte ever
written: all bytes zero (spec section 4.3, deterministic zero fill). -/
def Mem.fresh (mapped : Nat → Bool) : Mem := ⟨mapped, fun _ => 0⟩

/-- Modelled from the spec: the decoded-instruction fields the Hazard
Unit inspects (spec sections 3 and 4.4): destination register, the two
source registers, and whether the instruction is a load. -/
structure DecodedInstr where
  dest : Fin 32
  src1 : Fin 32
  src2 : Fin 32
  isLoad : Bool
deriving Repr, DecidableEq

/-- The decode-stage instruction reads register r (register 0 is the
hard-wired zero and never creates a dependency). -/
def readsReg (c : DecodedInstr) (r : Fin 32) : Bool :=
  decide (r ≠ 0) && (decide (c.src1 = r) || decide (c.src2 = r))

/-- Modelled from the spec: the decode-side view of the in-flight
pipeline while a consumer waits in Decode — the occupants of the
decode→execute and execute→memory latches ahead of it (`none` is a
bubble). -/
structure DecodeView where
  ex : Option DecodedInstr
  mem : Option DecodedInstr
deriving Repr, DecidableEq

/-- Modelled from the spec (section 4.4): the Hazard Unit stalls the
decode instruction when the Execute slot holds a load whose destination
it reads — the loaded value exists only after the Memory stage.  Once
the producer has passed into the Memory slot the value is forwardable,
so no stall is required. -/
def hazardStall (dec : DecodedInstr) (v : DecodeView) : Bool :=
  match v.ex with
  | some p => p.isLoad && readsReg dec p.dest
  | none => false

/-- Modelled from the spec (section 4.9): one stall cycle — fetch and
decode freeze, a bubble is injected downstream into the Execute slot,
and the in-flight producer advances from Execute to Memory. -/
def stallAdvance (v : DecodeView) : DecodeView := ⟨none, v.ex⟩

/-- Modelled from the spec (section 4.4, glossary "Forwarding"): once
the producer occupies the Memory-side slot its result is available for
forwarding to the consumer in Decode. -/
def memForwardAvailable (dec : DecodedInstr) : Option DecodedInstr → Bool
  | some p => readsReg dec p.dest
  | none => false

/-- The number of consecutive cycles the consumer is stalled in Decode,
advancing the in-flight view each stalled cycle; `fuel` bounds the
simulated cycles. -/
def stallCycles (dec : DecodedInstr) : DecodeView → Nat → Nat
  | _, 0 => 0
  | v, fuel + 1 =>
    if hazardStall dec v then 1 + stallCycles dec (stallAdvance v) fuel else 0

/-- Modelled from the spec: the four pipeline latches (spec section 3),
one per stage boundary; `none` is a bubble. -/
structure PipelineLatches where
  ifid : Option DecodedInstr
  idex : Option DecodedInstr
  exmem : Option DecodedInstr
  memwb : Option DecodedInstr
deriving Repr, DecidableEq

/-- Modelled from the spec (sections 4.5, 4.9, glossary "Branch
penalty"): branches resolve at Execute, so the instructions already in
flight in the two latches younger than the branch (fetch→decode and
decode→execute) are on the wrong path — the fixed penalty is 2. -/
def branchPenalty : Nat := 2

/-- Modelled from the spec (section 4.9): a branch resolved as taken
invalidates the latches younger than the branch; a branch resolved as
not-taken changes nothing. -/
def applyBranchResolution (taken : Bool) (p : PipelineLatches) :
    PipelineLatches :=
  if taken then { p with ifid := none, idex := none } else p

/-- One latch slot held an instruction before and a bubble after: one
flushed instruction. -/
def slotFlushed (b a : Option DecodedInstr) : Nat :=
  if b.isSome && a.isNone then 1 else 0

/-- How many in-flight instructions were converted to bubbles between
two latch states. -/
def flushedCount (b a : PipelineLatches) : Nat :=
  slotFlushed b.ifid a.ifid + slotFlushed b.idex a.idex +
    slotFlushed b.exmem a.exmem + slotFlushed b.memwb a.memwb

/-- Modelled from the spec: `DecodeFault` — an opcode/function-code
combination outside the supported subset (spec sections 4.1 and 7). -/
inductive DecodeFault where
  | unsupportedEncoding
deriving Repr, DecidableEq

/-- Modelled from the spec: the supported instruction subset used to
exercise the fault paths (spec section 4.1's classification): R-type
ALU, I-type ALU/immediate, load, store, branch, syscall. -/
inductive Instr where
  | add (d s t : Fin 32)
  | addi (t s : Fin 32) (imm : Int)
  | lw (t s : Fin 32) (off : Int)
  | sw (t s : Fin 32) (off : Int)
  | beq (s t : Fin 32) (off : Int)
  | syscall
deriving Repr, DecidableEq

/-- The bit field of width `width` starting at bit `lo` of a raw
32-bit word. -/
def decodeField (w lo width : Nat) : Nat := w / 2 ^ lo % 2 ^ width

/-- A 5-bit register field of a raw word. -/
def regField (w lo : Nat) : Fin 32 :=
  ⟨w / 2 ^ lo % 32, Nat.mod_lt _ (by norm_num)⟩

/-- Sign extension of a 16-bit immediate field. -/
def signExt16 (x : Nat) : Int :=
  if x < 2 ^ 15 then (x : Int) else (x : Int) - 2 ^ 16

/-- Modelled from the spec: `decode(word) -> Instruction | DecodeFault`
(spec section 4.1) — pure and deterministic, classifying by the MIPS
opcode (bits 26..31) and function code (bits 0..5); any combination
outside the supported subset is a `DecodeFault`, never silently
ignored. -/
def decode (w : Nat) : Except DecodeFault Instr :=
  if decodeField w 26 6 = 0 then
    if decodeField w 0 6 = 32 then
      .ok (.add (regField w 11) (regField w 21) (regField w 16))
    else if decodeField w 0 6 = 12 then .ok .syscall
    else .error .unsupportedEncoding
  else if decodeField w 26 6 = 8 then
    .ok (.addi (regField w 16) (regField w 21) (signExt16 (decodeField w 0 16)))
  else if decodeField w 26 6 = 35 then
    .ok (.lw (regField w 16) (regField w 21) (signExt16 (decodeField w 0 16)))
  else if decodeField w 26 6 = 43 then
    .ok (.sw (regField w 16) (regField w 21) (signExt16 (decodeField w 0 16)))
  else if decodeField w 26 6 = 4 then
    .ok (.beq (regField w 21) (regField w 16) (signExt16 (decodeField w 0 16)))
  else .error .unsupportedEncoding

/-- Two's-complement wrap of a signed 32-bit result. -/
def wrap32 (x : Int) : Int := (x + 2 ^ 31) % 2 ^ 32 - 2 ^ 31

/-- Big-endian assembly of loaded bytes into a word value. -/
def bytesToWord (b : List Nat) : Nat :=
  b.foldl (fun acc x => acc * 256 + x % 256) 0

/-- The unsigned 32-bit image of a signed register value. -/
def toWord (x : Int) : Nat := (x % 2 ^ 32).toNat

/-- Big-endian byte decomposition of a word for a store. -/
def wordBytes (x : Nat) : List Nat :=
  [x / 2 ^ 24 % 256, x / 2 ^ 16 % 256, x / 2 ^ 8 % 256, x % 256]

/-- Modelled from the spec: why the Controller halted (spec sections
4.9 and 7): a guest exit, one of the fault kinds, or external
cancellation by the host. -/
inductive HaltReason where
  | exited (status : Int)
  | decodeFault
  | memoryFault
  | unsupportedSyscall (num : Nat)
  | hostTerminated
deriving Repr, DecidableEq

/-- Modelled from the spec: the Controller is either running or in the
terminal Halted state (spec section 4.9). -/
inductive Status where
  | running
  | halted (r : HaltReason)
deriving Repr, DecidableEq

/-- Modelled from the spec: the simulator state owned by the Controller
(spec sections 2 and 3): register file, memory, program counter, the
append-only output stream, and the controller status. -/
structure SimState where
  regs : RegFile
  mem : Mem
  pc : Nat
  out : List Int
  status : Status

/-- The halting reasons that are faults (spec section 7's taxonomy):
`DecodeFault`, `MemoryFault`, `UnsupportedSyscall`, `HostTerminated` —
a normal guest exit is not a fault. -/
def isFaultHalt : Status → Bool
  | .halted .decodeFault => true
  | .halted .memoryFault => true
  | .halted (.unsupportedSyscall _) => true
  | .halted .hostTerminated => true
  | _ => false

/-- Modelled from the spec: processing one instruction to architectural
effect (spec sections 4.5-4.9 collapsed to committed state): ALU results
and loads commit through the Register File's write (respecting the
register-0 rule), stores commit through the Memory Subsystem, a trap
reads the encoded syscall number from register 2 (v0), normalizes it
once, and dispatches with the arguments from registers 4 and 5 (a0,
a1).  Every fault halts the Controller before any register or memory
write of the faulting instruction (spec section 7). -/
def stepInstr (pol : UnsupportedPolicy) (st : SimState) (w : Nat) : SimState :=
  match decode w with
  | .error _ => { st with status := .halted .decodeFault }
  | .ok i =>
    match i with
    | .add d s t =>
      { st with regs := st.regs.write d (wrap32 (st.regs.read s + st.regs.read t)),
                pc := st.pc + 4 }
    | .addi t s imm =>
      { st with regs := st.regs.write t (wrap32 (st.regs.read s + imm)),
                pc := st.pc + 4 }
    | .lw t s off =>
      if st.regs.read s + off < 0 then { st with status := .halted .memoryFault }
      else
        match st.mem.load (st.regs.read s + off).toNat 4 with
        | .error _ => { st with status := .halted .memoryFault }
        | .ok b =>
          { st with regs := st.regs.write t (wrap32 (bytesToWord b)),
                    pc := st.pc + 4 }
    | .sw t s off =>
      if st.regs.read s + off < 0 then { st with status := .halted .memoryFault }
      else
        match st.mem.store (st.regs.read s + off).toNat 4
            (wordBytes (toWord (st.regs.read t))) with
        | .error _ => { st with status := .halted .memoryFault }
        | .ok m2 => { st with mem := m2, pc := st.pc + 4 }
    | .beq s t off =>
      if st.regs.read s = st.regs.read t then
        { st with pc := ((st.pc : Int) + 4 + 4 * off).toNat }
      else { st with pc := st.pc + 4 }
    | .syscall =>
      match dispatch (normalize (st.regs.read 2).toNat)
          [st.regs.read 4, st.regs.read 5] with
      | .output n => { st with out := st.out ++ [n], pc := st.pc + 4 }
      | .exit s2 => { st with status := .halted (.exited s2) }
      | .unsupported m =>
        match pol with
        | .fatal => { st with status := .halted (.unsupportedSyscall m) }
        | .noop => { st with regs := st.regs.write 2 (-1), pc := st.pc + 4 }

/-- Modelled from the spec: one Controller cycle (spec sections 4.9 and
5): Halted is terminal; a pending host cancellation is honored between
cycles, never mid-cycle; otherwise the instruction word at the program
counter is fetched and processed. -/
def cycle (pol : UnsupportedPolicy) (hostCancel : Bool) (st : SimState) :
    SimState :=
  match st.status with
  | .halted _ => st
  | .running =>
    if hostCancel then { st with status := .halted .hostTerminated }
    else
      match st.mem.load st.pc 4 with
      | .error _ => { st with status := .halted .memoryFault }
      | .ok b => stepInstr pol st (bytesToWord b)

/-- A demonstration state for the fault witnesses: fresh fully mapped
memory, zero registers, empty output, running. -/
def demoState : SimState :=
  ⟨RegFile.init, Mem.fresh (fun _ => true), 0, [], .running⟩

theorem strlen_helloWorld : strlen helloWorld = 12 := rfl

theorem printLoop_unfold (i : Int) :
    printLoop i =
      if i ≤ 10 then ⟨SYS_print_int, [i]⟩ :: printLoop (i + 1) else [] := by
  rw [printLoop]
  by_cases h : i ≤ 10 <;> simp [h]

theorem printLoop_cons (i j : Int) (h : i ≤ 10) (hj : j = i + 1) :
    printLoop i = ⟨SYS_print_int, [i]⟩ :: printLoop j := by
  subst hj
  rw [printLoop_unfold, if_pos h]

theorem printLoop_stop (i : Int) (h : ¬ i ≤ 10) : printLoop i = [] := by
  rw [printLoop_unfold, if_neg h]

theorem printLoop_zero :
    printLoop 0 =
      [⟨SYS_print_int, [0]⟩, ⟨SYS_print_int, [1]⟩, ⟨SYS_print_int, [2]⟩,
       ⟨SYS_print_int, [3]⟩, ⟨SYS_print_int, [4]⟩, ⟨SYS_print_int, [5]⟩,
       ⟨SYS_print_int, [6]⟩, ⟨SYS_print_int, [7]⟩, ⟨SYS_print_int, [8]⟩,
       ⟨SYS_print_int, [9]⟩, ⟨SYS_print_int, [10]⟩] := by
  rw [printLoop_cons 0 1 (by decide) (by decide),
      printLoop_cons 1 2 (by decide) (by decide),
      printLoop_cons 2 3 (by decide) (by decide),
      printLoop_cons 3 4 (by decide) (by decide),
      printLoop_cons 4 5 (by decide) (by decide),
      printLoop_cons 5 6 (by decide) (by decide),
      printLoop_cons 6 7 (by decide) (by decide),
      printLoop_cons 7 8 (by decide) (by decide),
      printLoop_cons 8 9 (by decide) (by decide),
      printLoop_cons 9 10 (by decide) (by decide),
      printLoop_cons 10 11 (by decide) (by decide),
      printLoop_stop 11 (by decide)]

/-- The trace of `examples/mips-example.c`, written out invocation by
invocation. -/
theorem mipsExampleStart_eq :
    mipsExampleStart =
      [⟨SYS_print_int, [12]⟩,
       ⟨SYS_print_int, [0]⟩, ⟨SYS_print_int, [1]⟩, ⟨SYS_print_int, [2]⟩,
       ⟨SYS_print_int, [3]⟩, ⟨SYS_print_int, [4]⟩, ⟨SYS_print_int, [5]⟩,
       ⟨SYS_print_int, [6]⟩, ⟨SYS_print_int, [7]⟩, ⟨SYS_print_int, [8]⟩,
       ⟨SYS_print_int, [9]⟩, ⟨SYS_print_int, [10]⟩,
       ⟨44, [5, 6]⟩, ⟨SYS_exit, [42]⟩] := by
  simp [mipsExampleStart, printLoop_zero, strlen_helloWorld]

/-- The trace of `examples/mips_pipeline/mips-example.c`, written out
invocation by invocation. -/
theorem mipsPipelineStart_eq :
    mipsPipelineStart =
      [⟨SYS_print_int, [12]⟩,
       ⟨SYS_print_int, [0]⟩, ⟨SYS_print_int, [1]⟩, ⟨SYS_print_int, [2]⟩,
       ⟨SYS_print_int, [3]⟩, ⟨SYS_print_int, [4]⟩, ⟨SYS_print_int, [5]⟩,
       ⟨SYS_print_int, [6]⟩, ⟨SYS_print_int, [7]⟩, ⟨SYS_print_int, [8]⟩,
       ⟨SYS_print_int, [9]⟩, ⟨SYS_print_int, [10]⟩,
       ⟨SYS_exit, [42]⟩] := by
  simp [mipsPipelineStart, printLoop_zero, strlen_helloWorld]

theorem genRun_skip_middle (h : SyscallInvocation → HandlerResult)
    (c : SyscallInvocation) (hc : h c = .skip) :
    ∀ pre post, genRun h (pre ++ c :: post) = genRun h (pre ++ post) := by
  intro pre post
  induction pre with
  | nil => simp [genRun, hc]
  | cons p rest ih =>
    simp only [List.cons_append, genRun]
    cases hp : h p <;> simp [ih]

/-- C1: running the simulator on the fixture program that prints
`strlen "hello world\n"` (12), then prints 0 through 10 inclusive in a
loop, then exits with status 42, produces exactly the output sequence
12,0,1,2,3,4,5,6,7,8,9,10 (in that order) and a final exit status of
42 — under either policy for unrecognized syscalls, since this fixture
issues none. -/
theorem scenarioA_output_and_exit :
    runTrace .fatal mipsPipelineStart =
      ⟨[12, 0, 1, 2, 3, 4, 5, 6, 7, 8, 9, 10], .exited 42⟩ ∧
    runTrace .noop mipsPipelineStart =
      ⟨[12, 0, 1, 2, 3, 4, 5, 6, 7, 8, 9, 10], .exited 42⟩ := by
  rw [mipsPipelineStart_eq]
  exact ⟨by decide, by decide⟩

/-- C2: the run of the fixture program that issues syscall number 44
with arguments (5,6) drives the Syscall Dispatcher to the
`UnsupportedSyscall` outcome for that invocation, and under each of the
two candidate policies (fatal halt, or non-fatal no-op) the whole run
has a single fixed result — identical across runs, since the run is a
pure function of the trace and the policy.  In both cases the output
already emitted (12,0..10) is preserved. -/
theorem scenarioB_unsupported_syscall_fixed :
    dispatch 44 [5, 6] = .unsupported 44 ∧
    runTrace .fatal mipsExampleStart =
      ⟨[12, 0, 1, 2, 3, 4, 5, 6, 7, 8, 9, 10], .unsupportedFault 44⟩ ∧
    runTrace .noop mipsExampleStart =
      ⟨[12, 0, 1, 2, 3, 4, 5, 6, 7, 8, 9, 10], .exited 42⟩ := by
  refine ⟨by decide, ?_, ?_⟩ <;> rw [mipsExampleStart_eq] <;> decide

/-- C3: the number looked up by the Syscall Dispatcher is the raw
guest-visible syscall number: the +4000 O32 base offset introduced by
the guest toolchain's encoding is subtracted exactly once at the
Decoder/Dispatcher boundary (`dispatchEncoded` applies `normalize` once
and then performs the table lookup on the result), so dispatching an
encoded number agrees with dispatching the raw number for every raw
number and argument list; in particular raw 1 is print-integer and raw
10 is exit. -/
theorem syscall_number_normalized_once :
    (∀ raw : Nat, ∀ args : List Int,
      dispatchEncoded (encodeO32 raw) args = dispatch raw args) ∧
    normalize (encodeO32 1) = 1 ∧ normalize (encodeO32 10) = 10 ∧
    (∀ x : Int, dispatchEncoded (encodeO32 1) [x] = .output x) ∧
    (∀ x : Int, dispatchEncoded (encodeO32 10) [x] = .exit x) := by
  have hnorm : ∀ raw : Nat, normalize (encodeO32 raw) = raw := by
    intro raw
    simp [normalize, encodeO32]
  refine ⟨?_, hnorm 1, hnorm 10, ?_, ?_⟩
  · intro raw args
    rw [dispatchEncoded, hnorm]
  · intro x
    rw [dispatchEncoded, hnorm]
    rfl
  · intro x
    rw [dispatchEncoded, hnorm]
    rfl

/-- C9: `__start` of `examples/mips-example.c` performs, in program
order, exactly this syscall trace: one print-integer syscall (number 1)
with argument 12, then eleven print-integer syscalls with arguments
0,1,...,10 in strictly increasing order, then one syscall with number
44 and arguments (5,6), then one exit syscall (number 10) with argument
42, and no other syscalls. -/
theorem mipsExample_syscall_trace :
    mipsExampleStart =
      [⟨1, [12]⟩,
       ⟨1, [0]⟩, ⟨1, [1]⟩, ⟨1, [2]⟩, ⟨1, [3]⟩, ⟨1, [4]⟩, ⟨1, [5]⟩,
       ⟨1, [6]⟩, ⟨1, [7]⟩, ⟨1, [8]⟩, ⟨1, [9]⟩, ⟨1, [10]⟩,
       ⟨44, [5, 6]⟩, ⟨10, [42]⟩] := by
  rw [mipsExampleStart_eq]
  rfl

/-- C10: under any syscall semantics in which the invocation
`syscall(44, 5, 6)` is a non-fatal no-op with no output, the two
fixture programs produce identical results; under the standard
dispatcher with the no-op policy both produce the output sequence
12,0..10 and exit status 42; and the two traces differ only by the
`syscall(44, 5, 6)` invocation. -/
theorem syscall44_noop_equivalence :
    (∀ h : SyscallInvocation → HandlerResult,
      h ⟨44, [5, 6]⟩ = HandlerResult.skip →
      genRun h mipsExampleStart = genRun h mipsPipelineStart) ∧
    runTrace .noop mipsExampleStart = runTrace .noop mipsPipelineStart ∧
    runTrace .noop mipsPipelineStart =
      ⟨[12, 0, 1, 2, 3, 4, 5, 6, 7, 8, 9, 10], .exited 42⟩ ∧
    mipsExampleStart.filter (fun c => c.num == 44) = [⟨44, [5, 6]⟩] ∧
    mipsExampleStart.filter (fun c => c.num != 44) = mipsPipelineStart := by
  have h1 : mipsExampleStart =
      ([⟨1, [12]⟩,
        ⟨1, [0]⟩, ⟨1, [1]⟩, ⟨1, [2]⟩, ⟨1, [3]⟩, ⟨1, [4]⟩, ⟨1, [5]⟩,
        ⟨1, [6]⟩, ⟨1, [7]⟩, ⟨1, [8]⟩, ⟨1, [9]⟩, ⟨1, [10]⟩] :
          List SyscallInvocation) ++ ⟨44, [5, 6]⟩ :: [⟨10, [42]⟩] := by
    rw [mipsExampleStart_eq]
    rfl
  have h2 : mipsPipelineStart =
      ([⟨1, [12]⟩,
        ⟨1, [0]⟩, ⟨1, [1]⟩, ⟨1, [2]⟩, ⟨1, [3]⟩, ⟨1, [4]⟩, ⟨1, [5]⟩,
        ⟨1, [6]⟩, ⟨1, [7]⟩, ⟨1, [8]⟩, ⟨1, [9]⟩, ⟨1, [10]⟩] :
          List SyscallInvocation) ++ [⟨10, [42]⟩] := by
    rw [mipsPipelineStart_eq]
    rfl
  refine ⟨?_, ?_, ?_, ?_, ?_⟩
  · intro h hc
    rw [h1, h2]
    exact genRun_skip_middle h _ hc _ _
  · rw [h1, h2]
    decide
  · rw [h2]
    decide
  · rw [h1]
    decide
  · rw [h1, h2]
    decide

/-- Witness for C10: the standard no-op dispatcher semantics skips the
`syscall(44, 5, 6)` invocation, so the two fixture traces run to the
same result under it. -/
theorem syscall44_noop_equivalence_witness :
    genRun noopHandler mipsExampleStart = genRun noopHandler mipsPipelineStart :=
  syscall44_noop_equivalence.1 noopHandler rfl

theorem RegFile.read_write_same (rf : RegFile) (i : Fin 32) (v : Int)
    (h : i ≠ 0) : (rf.write i v).read i = v := by
  simp [RegFile.read, RegFile.write, h]

theorem RegFile.read_write_other (rf : RegFile) (i j : Fin 32) (v : Int)
    (h : j ≠ i) : (rf.write j v).read i = rf.read i := by
  by_cases h0 : j = 0
  · simp [RegFile.write, h0]
  · simp only [RegFile.write, if_neg h0, RegFile.read]
    rw [Function.update_noteq (Ne.symm h)]

theorem RegFile.read_applyWrites (i : Fin 32) :
    ∀ (ws : List (Fin 32 × Int)) (rf : RegFile), (∀ p ∈ ws, p.1 ≠ i) →
      (rf.applyWrites ws).read i = rf.read i := by
  intro ws
  induction ws with
  | nil => intro rf _; rfl
  | cons p rest ih =>
    intro rf hws
    obtain ⟨j, w⟩ := p
    rw [RegFile.applyWrites, ih _ (fun q hq => hws q (List.mem_cons_of_mem _ hq))]
    exact RegFile.read_write_other rf i j w (hws ⟨j, w⟩ (List.mem_cons_self _ _))

theorem RegFile.read_zero (rf : RegFile) : rf.read 0 = 0 := rfl

/-- C4: for every register index i with 1 ≤ i ≤ 31 (i.e. i ≠ 0) and
every value v, `write(i, v)` followed by any sequence of further writes
none of which targets i, then `read(i)`, yields v; for every sequence
of prior writes, `read(0)` yields 0; and `write(0, v)` is a no-op for
every v. -/
theorem regfile_write_read_laws :
    (∀ (rf : RegFile) (i : Fin 32) (v : Int) (ws : List (Fin 32 × Int)),
      i ≠ 0 → (∀ p ∈ ws, p.1 ≠ i) →
      ((rf.write i v).applyWrites ws).read i = v) ∧
    (∀ (rf : RegFile) (ws : List (Fin 32 × Int)),
      (rf.applyWrites ws).read 0 = 0) ∧
    (∀ (rf : RegFile) (v : Int), rf.write 0 v = rf) := by
  refine ⟨?_, ?_, ?_⟩
  · intro rf i v ws hi hws
    rw [RegFile.read_applyWrites i ws _ hws]
    exact RegFile.read_write_same rf i v hi
  · intro rf ws
    induction ws generalizing rf with
    | nil => rfl
    | cons p rest ih =>
      obtain ⟨j, w⟩ := p
      rw [RegFile.applyWrites]
      exact ih _
  · intro rf v
    simp [RegFile.write]

/-- Witness for C4 at register 1, value 7, with an intervening write to
register 2; a read of register 0 after a write to register 3; and a
write of 4 to register 0. -/
theorem regfile_write_read_laws_witness :
    ((RegFile.init.write 1 7).applyWrites [(2, 5)]).read 1 = 7 ∧
    (RegFile.init.applyWrites [(3, 9)]).read 0 = 0 ∧
    RegFile.init.write 0 4 = RegFile.init :=
  ⟨regfile_write_read_laws.1 RegFile.init 1 7 [(2, 5)] (by decide) (by decide),
   regfile_write_read_laws.2.1 RegFile.init [(3, 9)],
   regfile_write_read_laws.2.2 RegFile.init 4⟩

theorem range_map_getD (b : List Nat) :
    (List.range b.length).map (fun k => b.getD k 0) = b := by
  apply List.ext_getElem
  · simp
  · intro i h1 h2
    simp only [List.getElem_map, List.getElem_range]
    rw [List.getD_eq_getElem b 0 h2]

/-- C5: for every memory, every address aligned to width w (w in
{1,2,4}) inside a mapped region, and every byte string b of length w,
`store(a, w, b)` succeeds and a following `load(a, w)` returns b; and a
load of any mapped, aligned address of a never-written memory returns
zero-filled bytes. -/
theorem mem_store_load_laws :
    (∀ (m : Mem) (a w : Nat) (b : List Nat),
      (w = 1 ∨ w = 2 ∨ w = 4) → b.length = w →
      Mem.alignedTo w a = true → m.regionMapped a w = true →
      ∃ m2, m.store a w b = .ok m2 ∧ m2.load a w = .ok b) ∧
    (∀ (mp : Nat → Bool) (a w : Nat),
      Mem.alignedTo w a = true → (Mem.fresh mp).regionMapped a w = true →
      (Mem.fresh mp).load a w = .ok (List.replicate w 0)) := by
  constructor
  · intro m a w b _hw hb hal hmap
    refine ⟨{ m with
        bytes := fun x => if a ≤ x ∧ x < a + w then b.getD (x - a) 0 else m.bytes x },
      ?_, ?_⟩
    · rw [Mem.store, if_pos hal, if_pos hmap]
    · have hmap2 : Mem.regionMapped
          { m with bytes := fun x => if a ≤ x ∧ x < a + w then b.getD (x - a) 0 else m.bytes x }
          a w = true := hmap
      rw [Mem.load, if_pos hal, if_pos hmap2]
      congr 1
      have : ∀ k ∈ List.range w,
          (if a ≤ a + k ∧ a + k < a + w then b.getD (a + k - a) 0 else m.bytes (a + k)) =
            b.getD k 0 := by
        intro k hk
        rw [List.mem_range] at hk
        rw [if_pos ⟨Nat.le_add_right a k, by omega⟩]
        congr 1
        omega
      rw [List.map_congr_left this, ← hb, range_map_getD]
  · intro mp a w hal hmap
    rw [Mem.load, if_pos hal, if_pos hmap]
    congr 1
    show (List.range w).map (Function.const Nat 0) = List.replicate w 0
    rw [List.map_const, List.length_range]

/-- Witness for C5: a word store of bytes 1,2,3,4 at address 8 of a
fully mapped fresh memory loads back as 1,2,3,4; a halfword load at
address 0 of the fresh memory is zero-filled. -/
theorem mem_store_load_laws_witness :
    (∃ m2, (Mem.fresh (fun _ => true)).store 8 4 [1, 2, 3, 4] = .ok m2 ∧
      m2.load 8 4 = .ok [1, 2, 3, 4]) ∧
    (Mem.fresh (fun _ => true)).load 0 2 = .ok (List.replicate 2 0) :=
  ⟨mem_store_load_laws.1 (Mem.fresh (fun _ => true)) 8 4 [1, 2, 3, 4]
      (by decide) (by decide) (by decide) (by decide),
   mem_store_load_laws.2 (fun _ => true) 0 2 (by decide) (by decide)⟩

/-- C6: for every load instruction immediately followed by a consumer
of its destination register (a load-use hazard), the Hazard Unit
stalls the consumer for exactly one cycle — never zero, never more —
whatever else occupies the pipeline, and after that single stall the
loaded value is forwardable from the Memory side. -/
theorem load_use_exactly_one_stall
    (l c : DecodedInstr) (ms : Option DecodedInstr) (fuel : Nat)
    (hl : l.isLoad = true) (hr : readsReg c l.dest = true) :
    stallCycles c ⟨some l, ms⟩ (fuel + 1) = 1 ∧
    memForwardAvailable c (stallAdvance ⟨some l, ms⟩).mem = true := by
  have h2 : ∀ f, stallCycles c ⟨none, some l⟩ f = 0 := by
    intro f
    cases f with
    | zero => rfl
    | succ n => simp [stallCycles, hazardStall]
  constructor
  · simp [stallCycles, hazardStall, hl, hr, stallAdvance, h2]
  · simp [memForwardAvailable, stallAdvance, hr]

/-- Witness for C6: a load into register 3 immediately followed by an
instruction reading register 3 stalls exactly one cycle, after which
the value is forwardable. -/
theorem load_use_exactly_one_stall_witness :
    stallCycles ⟨1, 3, 4, false⟩ ⟨some ⟨3, 0, 0, true⟩, none⟩ 4 = 1 ∧
    memForwardAvailable ⟨1, 3, 4, false⟩
      (stallAdvance ⟨some ⟨3, 0, 0, true⟩, none⟩).mem = true :=
  load_use_exactly_one_stall ⟨3, 0, 0, true⟩ ⟨1, 3, 4, false⟩ none 3
    rfl (by decide)

theorem slotFlushed_same (x : Option DecodedInstr) : slotFlushed x x = 0 := by
  cases x <;> rfl

/-- C7: there is a single fixed constant — `branchPenalty`, equal to 2
— such that every branch resolved as taken at Execute flushes exactly
that many already-fetched/decoded wrong-path instructions (whenever the
two younger latches hold instructions), and every branch resolved as
not-taken flushes zero. -/
theorem taken_branch_fixed_flush_penalty :
    (∀ p : PipelineLatches, p.ifid.isSome = true → p.idex.isSome = true →
      flushedCount p (applyBranchResolution true p) = branchPenalty) ∧
    (∀ p : PipelineLatches,
      flushedCount p (applyBranchResolution false p) = 0) := by
  constructor
  · intro p h1 h2
    simp only [applyBranchResolution, if_true, flushedCount]
    rw [slotFlushed_same, slotFlushed_same]
    simp [slotFlushed, h1, h2, branchPenalty]
  · intro p
    simp [applyBranchResolution, flushedCount, slotFlushed_same]

/-- Witness for C7: with wrong-path instructions in the fetch→decode
and decode→execute latches, a taken branch flushes exactly 2, and a
not-taken branch flushes 0. -/
theorem taken_branch_fixed_flush_penalty_witness :
    flushedCount ⟨some ⟨1, 0, 0, false⟩, some ⟨2, 0, 0, false⟩, none, none⟩
      (applyBranchResolution true
        ⟨some ⟨1, 0, 0, false⟩, some ⟨2, 0, 0, false⟩, none, none⟩) =
      branchPenalty ∧
    flushedCount ⟨some ⟨1, 0, 0, false⟩, some ⟨2, 0, 0, false⟩, none, none⟩
      (applyBranchResolution false
        ⟨some ⟨1, 0, 0, false⟩, some ⟨2, 0, 0, false⟩, none, none⟩) = 0 :=
  ⟨taken_branch_fixed_flush_penalty.1
      ⟨some ⟨1, 0, 0, false⟩, some ⟨2, 0, 0, false⟩, none, none⟩ rfl rfl,
   taken_branch_fixed_flush_penalty.2
      ⟨some ⟨1, 0, 0, false⟩, some ⟨2, 0, 0, false⟩, none, none⟩⟩

/-- C8: for every instruction whose processing raises `DecodeFault`,
`MemoryFault`, or (under the fatal policy) `UnsupportedSyscall`, and
for a `HostTerminated` cancellation, no register write and no memory
write attributable to that instruction occurs and the output stream is
exactly what was emitted before the fault; the fault paths put the
Controller into the terminal Halted state, and a halted Controller
never changes state again. -/
theorem fault_no_partial_commit :
    (∀ (pol : UnsupportedPolicy) (st : SimState) (w : Nat),
      st.status = .running →
      isFaultHalt (stepInstr pol st w).status = true →
      (stepInstr pol st w).regs = st.regs ∧ (stepInstr pol st w).mem = st.mem ∧
      (stepInstr pol st w).out = st.out) ∧
    (∀ (pol : UnsupportedPolicy) (st : SimState) (w : Nat),
      decode w = .error .unsupportedEncoding →
      (stepInstr pol st w).status = .halted .decodeFault) ∧
    (∀ (pol : UnsupportedPolicy) (st : SimState),
      st.status = .running →
      cycle pol true st = { st with status := .halted .hostTerminated }) ∧
    (∀ (pol : UnsupportedPolicy) (cancel : Bool) (st : SimState)
      (r : HaltReason), st.status = .halted r → cycle pol cancel st = st) := by
  refine ⟨?_, ?_, ?_, ?_⟩
  · intro pol st w hrun
    cases hd : decode w with
    | error f => simp [stepInstr, hd]
    | ok i =>
      cases i with
      | add d s t => simp [stepInstr, hd, isFaultHalt, hrun]
      | addi t s imm => simp [stepInstr, hd, isFaultHalt, hrun]
      | lw t s off =>
        simp only [stepInstr, hd]
        split
        · simp
        · split <;> simp [isFaultHalt, hrun]
      | sw t s off =>
        simp only [stepInstr, hd]
        split
        · simp
        · split <;> simp [isFaultHalt, hrun]
      | beq s t off =>
        simp only [stepInstr, hd]
        split <;> simp [isFaultHalt, hrun]
      | syscall =>
        simp only [stepInstr, hd]
        split
        · simp [isFaultHalt, hrun]
        · simp [isFaultHalt, hrun]
        · split <;> simp [isFaultHalt, hrun]
  · intro pol st w hd
    simp [stepInstr, hd]
  · intro pol st hrun
    simp [cycle, hrun]
  · intro pol cancel st r hr
    simp [cycle, hr]

/-- Witness for C8: an all-ones opcode word decode-faults from the
demonstration state — the registers, memory and output are untouched
and the status is the Halted fault; a host cancellation of the running
demonstration state halts it with `HostTerminated`. -/
theorem fault_no_partial_commit_witness :
    ((stepInstr .fatal demoState (63 * 2 ^ 26)).regs = demoState.regs ∧
      (stepInstr .fatal demoState (63 * 2 ^ 26)).mem = demoState.mem ∧
      (stepInstr .fatal demoState (63 * 2 ^ 26)).out = demoState.out) ∧
    (stepInstr .fatal demoState (63 * 2 ^ 26)).status = .halted .decodeFault ∧
    cycle .fatal true demoState =
      { demoState with status := .halted .hostTerminated } :=
  ⟨fault_no_partial_commit.1 .fatal demoState (63 * 2 ^ 26) rfl (by decide),
   fault_no_partial_commit.2.1 .fatal demoState (63 * 2 ^ 26) rfl,
   fault_no_partial_commit.2.2.1 .fatal demoState rfl⟩

/-- Witness for C3: the encoded print-integer number 4001 dispatches
as raw number 1, and the encoded exit number 4010 exits with the given
status. -/
theorem syscall_number_normalized_once_witness :
    dispatchEncoded (encodeO32 1) [5] = dispatch 1 [5] ∧
    dispatchEncoded (encodeO32 10) [7] = .exit 7 :=
  ⟨syscall_number_normalized_once.1 1 [5],
   syscall_number_normalized_once.2.2.2.2 7⟩

end MipsFixtures
